import Mathlib

/-!
Verification of the GOSTnets network-processing library (GOSTnets/core.py and
GOSTnets/osm_parser.py) against its natural-language specification.

The Python data model is shallowly embedded: a networkx MultiDiGraph becomes a
structure holding a list of nodes (identifier plus attribute dictionary) and a
list of directed edges (ordered endpoint pair plus attribute dictionary, with
parallel edges distinguished by their position, matching the integer keys
networkx assigns in insertion order).  Python dictionaries become association
lists whose assignment keeps the position of an existing key and appends a new
one, matching insertion-ordered Python dicts.  Python numbers are modelled by
the rationals, and fallible Python code returns an explicit error value in
place of raising an exception.
-/

/-! ## Kernel-computable rational arithmetic

The Mathlib field operations on the rationals are marked irreducible, so a
statement evaluating the embedded code at a concrete input could not be
settled by the kernel if the embedding used them directly.  The embedding
instead uses the following cross-multiplication forms built on Rat.divInt,
which the kernel evaluates, and the accompanying lemmas identify them with
the ordinary operations for use in general theorems. -/

/-- Rational multiplication in kernel-computable form. -/
def qmul (a b : ℚ) : ℚ := Rat.divInt (a.num * b.num) (a.den * b.den)

/-- Rational division in kernel-computable form (division by zero yields 0,
matching the Mathlib convention; the modelled code never divides by zero on
the inputs considered). -/
def qdiv (a b : ℚ) : ℚ := Rat.divInt (a.num * b.den) (a.den * b.num)

/-- Rational addition in kernel-computable form. -/
def qadd (a b : ℚ) : ℚ := Rat.divInt (a.num * b.den + b.num * a.den) (a.den * b.den)

theorem qmul_eq (a b : ℚ) : qmul a b = a * b := by
  rw [qmul, ← Rat.divInt_mul_divInt', Rat.num_divInt_den, Rat.num_divInt_den]

theorem qdiv_eq (a b : ℚ) : qdiv a b = a / b := by
  rw [qdiv, ← Rat.divInt_div_divInt, Rat.num_divInt_den, Rat.num_divInt_den]

theorem qadd_eq (a b : ℚ) : qadd a b = a + b := by
  rw [qadd, ← Rat.divInt_add_divInt _ _ (by exact_mod_cast a.den_nz) (by exact_mod_cast b.den_nz),
    Rat.num_divInt_den, Rat.num_divInt_den]

/-- Python runtime values as they occur in node/edge attribute dictionaries of
this library: numbers (modelled by the rationals), strings, and lists of
strings (the transitional list-valued road-class attribute). -/
inductive PyVal where
  | num (q : ℚ)
  | str (s : String)
  | slist (l : List String)
deriving DecidableEq, Repr

/-- The Python exceptions raised by the code paths modelled here. -/
inductive PyErr where
  | valueError (msg : String)
  | keyError
  | indexError
  | typeError
  | nameError (name : String)
  | runtimeError (msg : String)
  | nodeNotFound
  | networkXError
deriving DecidableEq, Repr

/-- A Python dictionary with PyVal keys and values, as an insertion-ordered
association list. -/
abbrev AttrMap : Type := List (PyVal × PyVal)

/-- Dictionary read: value stored at a key, if present. -/
def getA : AttrMap → PyVal → Option PyVal
  | [], _ => none
  | (k0, v0) :: rest, k => if k0 = k then some v0 else getA rest k

/-- Dictionary assignment: replace the value of an existing key in place,
otherwise append the new binding (Python dict update order). -/
def setA : AttrMap → PyVal → PyVal → AttrMap
  | [], k, v => [(k, v)]
  | (k0, v0) :: rest, k, v =>
    if k0 = k then (k, v) :: rest else (k0, v0) :: setA rest k v

/-- A directed edge of a multigraph: endpoints u, v and its attribute dict. -/
abbrev Edge : Type := ℕ × ℕ × AttrMap

/-- A networkx MultiDiGraph: nodes with attribute dicts and a list of directed
edges; parallel edges between the same ordered pair are distinguished by their
position in the list (networkx keys in insertion order). -/
structure MDGraph where
  nodes : List (ℕ × AttrMap)
  edges : List Edge
deriving DecidableEq, Repr

/-- Placeholder edge used with List.getD when indexing edge lists. -/
def edgeDefault : Edge := (0, 0, [])

/-- Placeholder node entry used with List.getD when indexing node lists. -/
def nodeDefault : ℕ × AttrMap := (0, [])

/-- The node identifiers of a graph. -/
def nodeList (G : MDGraph) : List ℕ := G.nodes.map (fun p => p.1)

/-- Effectful map over a list in the Except monad, the shape of every
edge-by-edge Python for loop modelled below: the first raised exception
aborts the whole computation. -/
def mapE {α β : Type} (f : α → Except PyErr β) : List α → Except PyErr (List β)
  | [] => .ok []
  | a :: as =>
    match f a with
    | .error e => .error e
    | .ok b =>
      match mapE f as with
      | .error e => .error e
      | .ok bs => .ok (b :: bs)

instance exceptDecEq {ε α : Type} [DecidableEq ε] [DecidableEq α] :
    DecidableEq (Except ε α) := fun x y =>
  match x, y with
  | .ok a, .ok b =>
    if h : a = b then .isTrue (by rw [h])
    else .isFalse (by intro hc; cases hc; exact h rfl)
  | .error e, .error f =>
    if h : e = f then .isTrue (by rw [h])
    else .isFalse (by intro hc; cases hc; exact h rfl)
  | .ok _, .error _ => .isFalse (by intro hc; cases hc)
  | .error _, .ok _ => .isFalse (by intro hc; cases hc)

/-! ## getA and setA lemmas -/

theorem getA_setA_eq (d : AttrMap) (k v : PyVal) : getA (setA d k v) k = some v := by
  induction d with
  | nil => simp [setA, getA]
  | cons hd tl ih =>
    by_cases h : hd.1 = k
    · simp [setA, getA, h]
    · simp only [setA, getA]
      rw [if_neg h]
      simp only [getA]
      rw [if_neg h]
      exact ih

theorem getA_setA_ne (d : AttrMap) (k v k2 : PyVal) (h : k2 ≠ k) :
    getA (setA d k v) k2 = getA d k2 := by
  induction d with
  | nil =>
    simp only [setA, getA]
    rw [if_neg (fun hk => h hk.symm)]
  | cons hd tl ih =>
    by_cases hk : hd.1 = k
    · simp only [setA]
      rw [if_pos hk]
      simp only [getA]
      rw [if_neg (fun hk2 => h hk2.symm), hk]
      rw [if_neg (fun hk2 => h hk2.symm)]
    · simp only [setA]
      rw [if_neg hk]
      simp only [getA]
      by_cases h2 : hd.1 = k2
      · rw [if_pos h2, if_pos h2]
      · rw [if_neg h2, if_neg h2]
        exact ih

/-! ## mapE lemmas -/

theorem mapE_ok {α β : Type} (f : α → Except PyErr β) (dA : α) (dB : β) :
    ∀ (l : List α) (r : List β), mapE f l = .ok r →
      r.length = l.length ∧ ∀ i, i < l.length → f (l.getD i dA) = .ok (r.getD i dB) := by
  intro l
  induction l with
  | nil =>
    intro r h
    simp only [mapE] at h
    cases h
    exact ⟨rfl, fun i hi => absurd hi (by simp)⟩
  | cons a as ih =>
    intro r h
    simp only [mapE] at h
    cases hfa : f a with
    | error e => rw [hfa] at h; cases h
    | ok b =>
      rw [hfa] at h
      cases hrec : mapE f as with
      | error e => rw [hrec] at h; cases h
      | ok bs =>
        rw [hrec] at h
        cases h
        obtain ⟨hlen, helt⟩ := ih bs hrec
        refine ⟨by simp [hlen], fun i hi => ?_⟩
        cases i with
        | zero => simpa [List.getD] using hfa
        | succ n =>
          have hn : n < as.length := by simpa using hi
          simpa [List.getD] using helt n hn

/-! ## Travel-time modelling: convert_network_to_time (core.py lines 646-742) -/

/-- The hard-coded default speed table of convert_network_to_time, km/h. -/
def defaultSpeeds : List (String × ℚ) :=
  [("residential", 20), ("primary", 40), ("primary_link", 35), ("motorway", 50),
   ("motorway_link", 45), ("trunk", 40), ("trunk_link", 35), ("secondary", 30),
   ("secondary_link", 25), ("tertiary", 30), ("tertiary_link", 25), ("unclassified", 20)]

/-- Per-class lookup in a speed table. -/
def lookupSpeed : List (String × ℚ) → String → Option ℚ
  | [], _ => none
  | (c0, s0) :: rest, c => if c0 = c then some s0 else lookupSpeed rest c

/-- Road-class normalization inside convert_network_to_time: a list-valued
class attribute is replaced by its first element (IndexError on an empty
list, as in Python); a non-string, non-list value is kept only as a failed
table lookup (it can never be a key of the string-keyed speed table). -/
def classFirst : PyVal → Except PyErr (Option String)
  | .str s => .ok (some s)
  | .slist [] => .error .indexError
  | .slist (s :: _) => .ok (some s)
  | .num _ => .ok none

/-- Speed selection in drive mode: the per-class table entry if the class is a
key of the table, else the entry of the default class when one is given
(KeyError if it is itself absent), else the hard-coded 20 km/h fallback. -/
def driveSpeed (tbl : List (String × ℚ)) (dflt : Option String) :
    Option String → Except PyErr ℚ
  | some c =>
    match lookupSpeed tbl c with
    | some sp => .ok sp
    | none =>
      match dflt with
      | none => .ok 20
      | some dc =>
        match lookupSpeed tbl dc with
        | some sp => .ok sp
        | none => .error .keyError
  | none =>
    match dflt with
    | none => .ok 20
    | some dc =>
      match lookupSpeed tbl dc with
      | some sp => .ok sp
      | none => .error .keyError

/-- The speed used for one edge by convert_network_to_time: the walk speed in
walk mode; the drive-mode table lookup on the road-class attribute in drive
mode; ValueError on any other mode string. -/
def speedFor (graph_type : String) (sd : Option (List (String × ℚ))) (ws : ℚ)
    (dflt : Option String) (data : AttrMap) (road_col : PyVal) : Except PyErr ℚ :=
  if graph_type = "walk" then .ok ws
  else if graph_type = "drive" then
    match getA data road_col with
    | none => .error .keyError
    | some hcv =>
      match classFirst hcv with
      | .error e => .error e
      | .ok hc => driveSpeed (sd.getD defaultSpeeds) dflt hc
  else .error (.valueError "Expecting either a graph_type of walk or drive")

/-- The per-edge body of the convert_network_to_time loop: normalizes the
distance attribute by the unit factor into a length attribute, selects the
speed, and stamps time (seconds) and mode onto the edge dictionary.  The
road class is read from the dictionary after the length assignment, exactly
as the source does. -/
def convTimeEdge (dt road_col : PyVal) (graph_type : String)
    (sd : Option (List (String × ℚ))) (ws f : ℚ) (dflt : Option String)
    (e : Edge) : Except PyErr Edge :=
  match getA e.2.2 dt with
  | some (.num dv) =>
    let orig_len := qmul dv f
    let data1 := setA e.2.2 (.str "length") (.num orig_len)
    match speedFor graph_type sd ws dflt data1 road_col with
    | .error err => .error err
    | .ok speed =>
      .ok (e.1, e.2.1,
        setA (setA data1 (.str "time") (.num (qmul (qdiv (qdiv orig_len 1000) speed) 3600)))
          (.str "mode") (.str graph_type))
  | some _ => .error .typeError
  | none => .error .keyError

/-- convert_network_to_time (core.py 646-742): applies the per-edge time
conversion to every edge of a copy of the graph.  The default speed table is
substituted for a missing speed dictionary, as the in-loop reassignment of
the source does for drive mode. -/
def convert_network_to_time (G : MDGraph) (dt : PyVal) (graph_type : String)
    (road_col : PyVal) (sd : Option (List (String × ℚ))) (ws f : ℚ)
    (dflt : Option String) : Except PyErr MDGraph :=
  match mapE (convTimeEdge dt road_col graph_type sd ws f dflt) G.edges with
  | .error e => .error e
  | .ok es => .ok { nodes := G.nodes, edges := es }

/-- The concrete network of the spec test: a single 5000 m residential edge. -/
def exG : MDGraph :=
  { nodes := [(0, []), (1, [])],
    edges := [(0, 1, [(.str "length", .num 5000), (.str "highway", .str "residential")])] }

theorem speedFor_walk (sd : Option (List (String × ℚ))) (ws : ℚ) (dflt : Option String)
    (data : AttrMap) (rc : PyVal) : speedFor "walk" sd ws dflt data rc = .ok ws := by
  unfold speedFor
  rw [if_pos rfl]

theorem speedFor_drive (sd : Option (List (String × ℚ))) (ws : ℚ) (data : AttrMap)
    (rc : PyVal) (c : String)
    (hc : getA data rc = some (.str c) ∨ ∃ rest, getA data rc = some (.slist (c :: rest))) :
    speedFor "drive" sd ws none data rc = .ok ((lookupSpeed (sd.getD defaultSpeeds) c).getD 20) := by
  unfold speedFor
  rw [if_neg (by decide), if_pos rfl]
  rcases hc with hc | ⟨rest, hc⟩ <;> rw [hc] <;>
  · simp only [classFirst]
    cases hls : lookupSpeed (sd.getD defaultSpeeds) c <;> simp [driveSpeed, hls]

theorem convTimeEdge_time (dt rc : PyVal) (gt : String) (sd : Option (List (String × ℚ)))
    (ws f : ℚ) (dflt : Option String) (e e2 : Edge) (d sp : ℚ)
    (hd : getA e.2.2 dt = some (.num d))
    (hsp : speedFor gt sd ws dflt (setA e.2.2 (.str "length") (.num (qmul d f))) rc = .ok sp)
    (hok : convTimeEdge dt rc gt sd ws f dflt e = .ok e2) :
    getA e2.2.2 (.str "time") = some (.num (qmul (qdiv (qdiv (qmul d f) 1000) sp) 3600)) := by
  unfold convTimeEdge at hok
  rw [hd] at hok
  simp only at hok
  rw [hsp] at hok
  cases hok
  rw [getA_setA_ne _ _ _ _ (by decide), getA_setA_eq]

theorem conv_ok_edges (G : MDGraph) (dt rc : PyVal) (gt : String)
    (sd : Option (List (String × ℚ))) (ws f : ℚ) (dflt : Option String) (G2 : MDGraph)
    (hok : convert_network_to_time G dt gt rc sd ws f dflt = .ok G2) :
    ∀ i, i < G.edges.length →
      convTimeEdge dt rc gt sd ws f dflt (G.edges.getD i edgeDefault) =
        .ok (G2.edges.getD i edgeDefault) := by
  intro i hi
  unfold convert_network_to_time at hok
  cases hmap : mapE (convTimeEdge dt rc gt sd ws f dflt) G.edges with
  | error e => rw [hmap] at hok; cases hok
  | ok es =>
    rw [hmap] at hok
    cases hok
    exact (mapE_ok _ edgeDefault edgeDefault _ _ hmap).2 i hi

/-- C1: convert_network_to_time computes, for every edge, in drive mode
time = (distance x factor / 1000) / speed x 3600 seconds, where the speed is
the per-class speed-table entry (first element when the road-class attribute
is a list) with a hard-coded 20 km/h fallback when the class is absent from
the table and no default class is supplied; in walk mode every edge uniformly
gets time = (distance x factor / 1000) / walk-speed x 3600.  In particular a
5000 m residential edge in drive mode with the default table gets exactly
900 seconds, and in walk mode at the default 4.5 km/h exactly 4000 seconds. -/
theorem convert_network_to_time_spec :
    (∀ (G : MDGraph) (dt rc : PyVal) (sd : Option (List (String × ℚ))) (ws f : ℚ)
        (G2 : MDGraph),
        convert_network_to_time G dt "drive" rc sd ws f none = .ok G2 →
        rc ≠ .str "length" →
        ∀ i, i < G.edges.length →
        ∀ d : ℚ, getA (G.edges.getD i edgeDefault).2.2 dt = some (.num d) →
        ∀ c : String,
          (getA (G.edges.getD i edgeDefault).2.2 rc = some (.str c) ∨
           (∃ rest, getA (G.edges.getD i edgeDefault).2.2 rc = some (.slist (c :: rest)))) →
          getA (G2.edges.getD i edgeDefault).2.2 (.str "time") =
            some (.num (d * f / 1000 / ((lookupSpeed (sd.getD defaultSpeeds) c).getD 20) * 3600)))
  ∧ (∀ (G : MDGraph) (dt rc : PyVal) (sd : Option (List (String × ℚ))) (ws f : ℚ)
        (dflt : Option String) (G2 : MDGraph),
        convert_network_to_time G dt "walk" rc sd ws f dflt = .ok G2 →
        ∀ i, i < G.edges.length →
        ∀ d : ℚ, getA (G.edges.getD i edgeDefault).2.2 dt = some (.num d) →
          getA (G2.edges.getD i edgeDefault).2.2 (.str "time") =
            some (.num (d * f / 1000 / ws * 3600)))
  ∧ (convert_network_to_time exG (.str "length") "drive" (.str "highway") none
        (Rat.divInt 9 2) 1 none).map
      (fun H => getA (H.edges.getD 0 edgeDefault).2.2 (.str "time")) = .ok (some (.num 900))
  ∧ (convert_network_to_time exG (.str "length") "walk" (.str "highway") none
        (Rat.divInt 9 2) 1 none).map
      (fun H => getA (H.edges.getD 0 edgeDefault).2.2 (.str "time")) = .ok (some (.num 4000)) := by
  refine ⟨?_, ?_, by decide, by decide⟩
  · intro G dt rc sd ws f G2 hok hrc i hi d hd c hc
    have hedge := conv_ok_edges G dt rc "drive" sd ws f none G2 hok i hi
    have hsp : speedFor "drive" sd ws none
        (setA (G.edges.getD i edgeDefault).2.2 (.str "length") (.num (qmul d f))) rc =
        .ok ((lookupSpeed (sd.getD defaultSpeeds) c).getD 20) := by
      apply speedFor_drive
      rcases hc with hc | ⟨rest, hc⟩
      · exact Or.inl (by rw [getA_setA_ne _ _ _ _ hrc]; exact hc)
      · exact Or.inr ⟨rest, by rw [getA_setA_ne _ _ _ _ hrc]; exact hc⟩
    have := convTimeEdge_time dt rc "drive" sd ws f none _ _ d _ hd hsp hedge
    rw [this, qmul_eq, qdiv_eq, qdiv_eq, qmul_eq]
  · intro G dt rc sd ws f dflt G2 hok i hi d hd
    have hedge := conv_ok_edges G dt rc "walk" sd ws f dflt G2 hok i hi
    have hsp := speedFor_walk sd ws dflt
      (setA (G.edges.getD i edgeDefault).2.2 (.str "length") (.num (qmul d f))) rc
    have := convTimeEdge_time dt rc "walk" sd ws f dflt _ _ d _ hd hsp hedge
    rw [this, qmul_eq, qdiv_eq, qdiv_eq, qmul_eq]

/-- Witness for C1: the general drive-mode formula instantiated on the
concrete 5000 m residential edge, with every hypothesis discharged there;
the resulting speed expression is the default-table residential entry. -/
theorem convert_network_to_time_spec_witness :
    ∃ G2 : MDGraph,
      convert_network_to_time exG (.str "length") "drive" (.str "highway") none
        (Rat.divInt 9 2) 1 none = .ok G2 ∧
      getA (G2.edges.getD 0 edgeDefault).2.2 (.str "time") =
        some (.num (5000 * 1 / 1000 /
          ((lookupSpeed (Option.getD none defaultSpeeds) "residential").getD 20) * 3600)) := by
  refine ⟨_, rfl, ?_⟩
  exact convert_network_to_time_spec.1 exG (.str "length") (.str "highway") none
    (Rat.divInt 9 2) 1 _ rfl (by decide) 0 (by decide) 5000 (by decide) "residential"
    (Or.inl (by decide))

/-! ## Shortest-path model and calculate_OD (core.py lines 767-822) -/

/-- Fold-based minimum of a list of rationals, none for the empty list. -/
def listMinQ (l : List ℚ) : Option ℚ :=
  l.foldl (fun acc q => match acc with | none => some q | some a => some (min a q)) none

/-- Fold-based maximum of a list of rationals, none for the empty list. -/
def listMaxQ (l : List ℚ) : Option ℚ :=
  l.foldl (fun acc q => match acc with | none => some q | some a => some (max a q)) none

/-- The networkx edge-weight function: the attribute value stored under the
weight key, defaulting to 1 when the attribute is missing (non-numeric weight
values are outside the model; the library stores numeric times). -/
def edgeWeight (wkey : PyVal) (d : AttrMap) : ℚ :=
  match getA d wkey with
  | some (.num q) => q
  | _ => 1

/-- Weight of the arc from u to v: the minimum over parallel edges, as the
networkx multigraph weight function takes; none when no such edge exists. -/
def arcW (G : MDGraph) (wkey : PyVal) (u v : ℕ) : Option ℚ :=
  listMinQ ((G.edges.filter (fun e => decide (e.1 = u) && decide (e.2.1 = v))).map
    (fun e => edgeWeight wkey e.2.2))

/-- Distinct successors of a node. -/
def succs (G : MDGraph) (u : ℕ) : List ℕ :=
  ((G.edges.filter (fun e => decide (e.1 = u))).map (fun e => e.2.1)).dedup

/-- Minimum cost over simple paths from u to v avoiding the visited list, with
enough fuel for every simple path.  For the nonnegative weights this library
stores, this is the distance found by the single-source Dijkstra search of
networkx, and it is some value exactly when v is reachable from u, matching
membership of v in the key set of the returned distance dictionary. -/
def minCost (G : MDGraph) (wkey : PyVal) : ℕ → List ℕ → ℕ → ℕ → Option ℚ
  | 0, _, _, _ => none
  | fuel+1, visited, u, v =>
    if u = v then some 0
    else
      listMinQ ((succs G u).filterMap (fun x =>
        if x ∈ visited then none
        else
          match arcW G wkey u x, minCost G wkey fuel (u :: visited) x v with
          | some w, some c => some (qadd w c)
          | _, _ => none))

/-- One cell of the OD matrix as filled by the inner loop of calculate_OD: the
single-source shortest-path cost when the destination is reachable (a key of
the Dijkstra distance dictionary), else the caller-supplied fail value. -/
def odCell (G : MDGraph) (wkey : PyVal) (fail : ℚ) (s t : ℕ) : ℚ :=
  match minCost G wkey (G.nodes.length + 1) [] s t with
  | some c => c
  | none => fail

/-- The OD matrix built by running one single-source search per source row. -/
def buildOD (G : MDGraph) (wkey : PyVal) (sources targets : List ℕ) (fail : ℚ) :
    List (List ℚ) :=
  sources.map (fun s => targets.map (fun t => odCell G wkey fail s t))

/-- numpy transpose of a rectangular row-major matrix with ncols columns. -/
def transposeM (ncols : ℕ) (m : List (List ℚ)) : List (List ℚ) :=
  (List.range ncols).map (fun j => m.map (fun row => row.getD j 0))

/-- calculate_OD (core.py 767-822) in the default (non-weighted-origins) mode:
when origins outnumber destinations the two lists are swapped, the matrix is
built by single-source searches from the swapped origin (smaller) side, and
the result is transposed back; a search from a node absent from the graph
raises NodeNotFound in networkx, modelled as the error case. -/
def calculate_OD (G : MDGraph) (wkey : PyVal) (origins destinations : List ℕ)
    (fail : ℚ) : Except PyErr (List (List ℚ)) :=
  if destinations.length < origins.length then
    if destinations.all (fun s => decide (s ∈ nodeList G)) then
      .ok (transposeM origins.length (buildOD G wkey destinations origins fail))
    else .error .nodeNotFound
  else
    if origins.all (fun s => decide (s ∈ nodeList G)) then
      .ok (buildOD G wkey origins destinations fail)
    else .error .nodeNotFound

/-- A graph is fully connected for a weight key when every node reaches every
node. -/
def fullyConnectedB (G : MDGraph) (wkey : PyVal) : Bool :=
  (nodeList G).all (fun u => (nodeList G).all (fun v =>
    (minCost G wkey (G.nodes.length + 1) [] u v).isSome))

/-! ## List indexing helpers -/

theorem getD_eq_getElem_of_lt {α : Type} (l : List α) (i : ℕ) (h : i < l.length) (dflt : α) :
    l.getD i dflt = l[i] := by
  induction l generalizing i with
  | nil => cases h
  | cons a as ih =>
    cases i with
    | zero => rfl
    | succ n => exact ih n (by simpa using h)

theorem getD_map_of_lt {α β : Type} (f : α → β) (l : List α) (i : ℕ) (h : i < l.length)
    (dA : α) (dB : β) : (l.map f).getD i dB = f (l.getD i dA) := by
  induction l generalizing i with
  | nil => cases h
  | cons a as ih =>
    cases i with
    | zero => rfl
    | succ n => exact ih n (by simpa using h)

theorem range_map_getD (r : List ℚ) (c : ℕ) (h : r.length = c) :
    (List.range c).map (fun j => r.getD j 0) = r := by
  apply List.ext_getElem
  · simp [h]
  · intro i h1 h2
    simp only [List.getElem_map, List.getElem_range]
    exact getD_eq_getElem_of_lt r i h2 0

theorem transposeM_transposeM (m : List (List ℚ)) (r c : ℕ) (hr : m.length = r)
    (hc : ∀ row ∈ m, row.length = c) :
    transposeM r (transposeM c m) = m := by
  unfold transposeM
  apply List.ext_getElem
  · simp [hr]
  · intro i h1 h2
    simp only [List.getElem_map, List.getElem_range, List.map_map]
    have hstep : ∀ j : ℕ,
        ((fun row => row.getD i 0) ∘ fun j => m.map (fun row => row.getD j 0)) j =
          (m[i]).getD j 0 := by
      intro j
      simp only [Function.comp]
      rw [getD_map_of_lt _ m i h2 []]
      rw [getD_eq_getElem_of_lt m i h2]
    rw [List.map_congr_left (fun j _ => hstep j)]
    exact range_map_getD _ c (hc m[i] (List.getElem_mem h2))

/-- The counterexample graph for C2: three nodes, one edge from node 2 to
node 0 with time 5, so node 2 is unreachable from node 0. -/
def gC2 : MDGraph :=
  { nodes := [(0, []), (1, []), (2, [])],
    edges := [(2, 0, [(.str "time", .num 5)])] }

/-- The witness graph for C2: two isolated nodes. -/
def gW2 : MDGraph := { nodes := [(0, []), (1, [])], edges := [] }

/-- C2 (amended): in default mode, provided the origin list does not outnumber
the destination list (so the single-source searches run from the origin
side), every origin-destination pair with no connecting path receives exactly
the caller-supplied fail value at its cell, and no exception is raised.  When
origins outnumber destinations the searches run from the destination side and
the cell instead reflects the reverse-direction path (see the
counterexample). -/
theorem calculate_OD_fail_value (G : MDGraph) (wkey : PyVal) (o d : List ℕ) (fv : ℚ)
    (hlen : o.length ≤ d.length)
    (ho : o.all (fun s => decide (s ∈ nodeList G)) = true)
    (i j : ℕ) (hi : i < o.length) (hj : j < d.length)
    (hnp : minCost G wkey (G.nodes.length + 1) [] (o.getD i 0) (d.getD j 0) = none) :
    ∃ M, calculate_OD G wkey o d fv = .ok M ∧ (M.getD i []).getD j 0 = fv := by
  unfold calculate_OD
  rw [if_neg (by omega), if_pos ho]
  refine ⟨_, rfl, ?_⟩
  unfold buildOD
  rw [getD_map_of_lt _ o i hi 0]
  rw [getD_map_of_lt _ d j hj 0]
  unfold odCell
  rw [hnp]

/-- C2 counterexample: with origins [0, 1] and destinations [2] the origins
outnumber the destinations, so the search runs from node 2; node 2 is
unreachable from node 0, yet the cell for the pair (0, 2) holds 5 (the cost
of the reverse path from 2 to 0) instead of the fail value 99. -/
theorem calculate_OD_fail_value_cex :
    minCost gC2 (.str "time") (gC2.nodes.length + 1) [] 0 2 = none ∧
    calculate_OD gC2 (.str "time") [0, 1] [2] 99 = .ok [[5], [99]] ∧
    (5 : ℚ) ≠ 99 := by decide

/-- Witness for C2: a two-node edgeless graph, origin [0], destinations
[0, 1]; the unreachable pair (0, 1) receives the fail value 77. -/
theorem calculate_OD_fail_value_witness :
    ∃ M, calculate_OD gW2 (.str "time") [0] [0, 1] 77 = .ok M ∧ (M.getD 0 []).getD 1 0 = 77 :=
  calculate_OD_fail_value gW2 (.str "time") [0] [0, 1] 77 (by decide) (by decide) 0 1
    (by decide) (by decide) (by decide)

/-- The counterexample graph for C3: strongly connected two-node graph with
asymmetric times (0 to 1 costs 1; 1 to 0 costs 2). -/
def gC3 : MDGraph :=
  { nodes := [(0, []), (1, [])],
    edges := [(0, 1, [(.str "time", .num 1)]), (1, 0, [(.str "time", .num 2)])] }

/-- C3 (amended): for a fully connected graph and origin/destination lists of
different lengths (all listed IDs nodes of the graph), the matrix returned by
calculate_OD with the lists one way is the exact transpose of the matrix
returned with the lists swapped.  For equal-length lists the property fails
on directed graphs with asymmetric travel times (see the counterexample). -/
theorem calculate_OD_transpose (G : MDGraph) (wkey : PyVal) (o d : List ℕ) (fv : ℚ)
    (ho : o.all (fun s => decide (s ∈ nodeList G)) = true)
    (hd : d.all (fun s => decide (s ∈ nodeList G)) = true)
    (_hfc : fullyConnectedB G wkey = true)
    (hne : o.length ≠ d.length) :
    calculate_OD G wkey o d fv = (calculate_OD G wkey d o fv).map (transposeM o.length) := by
  unfold calculate_OD
  rcases lt_or_gt_of_ne hne with hlt | hgt
  · rw [if_neg (by omega), if_pos ho, if_pos hlt, if_pos ho]
    simp only [Except.map]
    rw [transposeM_transposeM (buildOD G wkey o d fv) o.length d.length (by simp [buildOD])
      (by intro row hrow; simp only [buildOD, List.mem_map] at hrow; obtain ⟨s, _, hs⟩ := hrow;
          rw [← hs]; simp)]
  · rw [if_pos hgt, if_pos hd, if_neg (by omega), if_pos hd]
    simp only [Except.map]

/-- C3 counterexample: on the fully connected graph gC3 with the equal-length
lists [0] and [1], calculate_OD gives [[1]] one way and its swapped
counterpart transposes to [[2]]; the matrices are not transposes of each
other because the travel times are asymmetric. -/
theorem calculate_OD_transpose_cex :
    fullyConnectedB gC3 (.str "time") = true ∧
    calculate_OD gC3 (.str "time") [0] [1] 99 = .ok [[1]] ∧
    (calculate_OD gC3 (.str "time") [1] [0] 99).map (transposeM 1) = .ok [[2]] ∧
    Except.ok (ε := PyErr) [[(1 : ℚ)]] ≠ .ok [[(2 : ℚ)]] := by decide

/-- Witness for C3: the amended transpose property instantiated on gC3 with
lists [0] and [0, 1] of different lengths. -/
theorem calculate_OD_transpose_witness :
    fullyConnectedB gC3 (.str "time") = true ∧
    calculate_OD gC3 (.str "time") [0] [0, 1] 99 =
      (calculate_OD gC3 (.str "time") [0, 1] [0] 99).map (transposeM 1) :=
  ⟨by decide, calculate_OD_transpose gC3 (.str "time") [0] [0, 1] 99 (by decide) (by decide)
    (by decide) (by decide)⟩

/-! ## remove_duplicate_edges (core.py lines 991-1016) -/

/-- networkx number_of_edges(u, v): the count of parallel edges from u to v. -/
def number_of_edges (es : List Edge) (u v : ℕ) : ℕ :=
  (es.filter (fun e => decide (e.1 = u) && decide (e.2.1 = v))).length

/-- The lengths G2.edges[u, v, i]['length'] for i in range(t): the length
attribute of each parallel edge from u to v in key (insertion) order;
KeyError when an edge lacks the attribute, TypeError when it is not a
number. -/
def parallelLengths (es : List Edge) (u v : ℕ) : Except PyErr (List ℚ) :=
  mapE (fun e =>
      match getA e.2.2 (.str "length") with
      | some (.num q) => .ok q
      | some _ => .error .typeError
      | none => .error .keyError)
    (es.filter (fun e => decide (e.1 = u) && decide (e.2.1 = v)))

/-- The scanning loop of remove_duplicate_edges: for each edge (u, v) whose
pair is not yet in the uniques list, the REVERSE pair (v, u) is appended to
uniques (as the source does), the parallel lengths are compared, and when
max/min is below the ratio limit the pair (u, v) is appended to the deletes
list.  Because only (v, u) is recorded, a later parallel copy of (u, v)
is processed again and appends (u, v) to deletes a second time. -/
def rde_loop (es : List Edge) (ratioLimit : ℚ) :
    List Edge → List (ℕ × ℕ) → List (ℕ × ℕ) → Except PyErr (List (ℕ × ℕ))
  | [], _, deletes => .ok deletes
  | e :: rest, uniques, deletes =>
    if (e.1, e.2.1) ∈ uniques then rde_loop es ratioLimit rest uniques deletes
    else
      match parallelLengths es e.1 e.2.1 with
      | .error err => .error err
      | .ok lengths =>
        match listMaxQ lengths, listMinQ lengths with
        | some mx, some mn =>
          if ratioLimit ≤ qdiv mx mn then
            rde_loop es ratioLimit rest ((e.2.1, e.1) :: uniques) deletes
          else
            rde_loop es ratioLimit rest ((e.2.1, e.1) :: uniques) (deletes ++ [(e.1, e.2.1)])
        | _, _ => .error (.valueError "max arg is an empty sequence")

/-- networkx MultiDiGraph.remove_edge(u, v) with no key: removes the edge with
the highest key, i.e. the last parallel copy in insertion order; none when no
edge from u to v remains. -/
def removeLastPair : List Edge → ℕ → ℕ → Option (List Edge)
  | [], _, _ => none
  | e :: rest, u, v =>
    match removeLastPair rest u v with
    | some rest2 => some (e :: rest2)
    | none => if e.1 = u ∧ e.2.1 = v then some rest else none

/-- The deletion loop of remove_duplicate_edges: one remove_edge call per
collected pair, NetworkXError when a pair has no remaining edge. -/
def applyDeletes : List Edge → List (ℕ × ℕ) → Except PyErr (List Edge)
  | es, [] => .ok es
  | es, (u, v) :: ds =>
    match removeLastPair es u v with
    | some es2 => applyDeletes es2 ds
    | none => .error .networkXError

/-- remove_duplicate_edges (core.py 991-1016): collects one delete entry per
processed edge occurrence whose parallel-length ratio is below the limit,
then removes one parallel edge per entry. -/
def remove_duplicate_edges (G : MDGraph) (ratioLimit : ℚ) : Except PyErr MDGraph :=
  match rde_loop G.edges ratioLimit G.edges [] [] with
  | .error e => .error e
  | .ok deletes =>
    match applyDeletes G.edges deletes with
    | .error e => .error e
    | .ok es => .ok { nodes := G.nodes, edges := es }

/-- Two parallel edges of lengths 100 and 140 (ratio 1.4, below 1.5). -/
def gC4a : MDGraph :=
  { nodes := [(0, []), (1, [])],
    edges := [(0, 1, [(.str "length", .num 100)]), (0, 1, [(.str "length", .num 140)])] }

/-- Two parallel edges of lengths 100 and 160 (ratio 1.6, at least 1.5). -/
def gC4b : MDGraph :=
  { nodes := [(0, []), (1, [])],
    edges := [(0, 1, [(.str "length", .num 100)]), (0, 1, [(.str "length", .num 160)])] }

/-- C4: evaluation of remove_duplicate_edges at max_ratio 1.5 on the two
spec scenarios.  For the pair of parallel edges of lengths 100 and 140
(ratio 1.4 below the limit) the code removes BOTH parallel edges, leaving
zero instead of the one representative the spec requires, because the scan
loop records only the reverse pair (v, u) in its uniques list and therefore
appends one delete entry per parallel copy of (u, v); the 100/160 pair
(ratio 1.6) is left untouched as specified. -/
theorem remove_duplicate_edges_bug :
    remove_duplicate_edges gC4a (Rat.divInt 3 2) = .ok { nodes := gC4a.nodes, edges := [] } ∧
    remove_duplicate_edges gC4b (Rat.divInt 3 2) = .ok gC4b := by decide

/-! ## generate_isochrones (core.py lines 439-496) -/

/-- The node set of networkx ego_graph(G, center, radius, distance=wkey): all
nodes whose shortest-path cost from the center is at most the radius (the
center itself included at cost 0). -/
def egoNodes (G : MDGraph) (wkey : PyVal) (center : ℕ) (radius : ℚ) : List ℕ :=
  (nodeList G).filter (fun v =>
    match minCost G wkey (G.nodes.length + 1) [] center v with
    | some c => decide (c ≤ radius)
    | none => false)

/-- generate_isochrones (core.py 439-496): after validating that origins is a
non-empty list, the source reads the attribute dictionary of the FIRST NODE
(list(G.nodes(data=True))[:1][0][1], IndexError on an empty graph) and, when
no weight is supplied, demands a time key in THAT dictionary even though its
own error message and docstring describe an edge attribute; it then computes
one ego graph per origin (NodeNotFound if an origin is absent from the
graph) and stamps each node with 1/0 reachability (stacking false) or the
count of origins reaching it (stacking true) under the threshold key. -/
def generate_isochrones (G : MDGraph) (origins : List ℕ) (thresh : ℚ)
    (weight : Option PyVal) (stacking : Bool) : Except PyErr MDGraph :=
  if origins.length < 1 then
    .error (.valueError "Ensure isochrone centers is a list containing at least one node ID")
  else
    match G.nodes.head? with
    | none => .error .indexError
    | some nd =>
      match
        ((match weight with
         | some w => Except.ok w
         | none =>
           if (getA nd.2 (.str "time")).isSome then .ok (.str "time")
           else .error (.valueError "need time key in edge value dictionary")) :
          Except PyErr PyVal)
      with
      | .error e => .error e
      | .ok wkey =>
        if origins.all (fun o => decide (o ∈ nodeList G)) then
          let reachable := (origins.map (fun o => egoNodes G wkey o thresh)).flatten
          if stacking then
            .ok { nodes := G.nodes.map (fun p =>
                    (p.1, setA p.2 (.num thresh) (.num (reachable.count p.1)))),
                  edges := G.edges }
          else
            .ok { nodes := G.nodes.map (fun p =>
                    (p.1, setA p.2 (.num thresh)
                      (.num (if p.1 ∈ reachable then 1 else 0)))),
                  edges := G.edges }
        else .error .nodeNotFound

/-- The failing graph for C5: every edge carries a time attribute, but the
nodes carry none. -/
def gC5 : MDGraph :=
  { nodes := [(0, []), (1, [])], edges := [(0, 1, [(.str "time", .num 1)])] }

/-- The dual graph for C5: the first node carries a time attribute while the
edges carry none. -/
def gC5n : MDGraph :=
  { nodes := [(0, [(.str "time", .num 7)]), (1, [])], edges := [(0, 1, [])] }

/-- C5: on gC5, whose edges all carry the time attribute, the call with no
explicit weight raises ValueError anyway, and on gC5n, whose edges carry no
time attribute at all, it succeeds because the first node happens to carry
one: the source checks the first node dictionary where the claim (and the
code's own error message) requires the check on the edge attribute. -/
theorem generate_isochrones_bug :
    gC5.edges.all (fun e => (getA e.2.2 (.str "time")).isSome) = true ∧
    generate_isochrones gC5 [0] 5 none false =
      .error (.valueError "need time key in edge value dictionary") ∧
    gC5n.edges.all (fun e => (getA e.2.2 (.str "time")).isNone) = true ∧
    (generate_isochrones gC5n [0] 5 none false).isOk = true := by decide

/-! ## clip input validation (core.py lines 1730-1758) -/

/-- Runtime type of the boundary argument of clip (shapely geometry types). -/
inductive BoundType where
  | polygon
  | multiPolygon
  | point
  | lineString
  | geometryCollection
deriving DecidableEq, Fintype

/-- Runtime type of the network argument of clip (graph library types). -/
inductive GraphType where
  | multiDiGraph
  | diGraph
  | multiGraph
  | simpleGraph
deriving DecidableEq, Fintype

/-- The two validation checks at the top of clip (core.py 1745-1751), run
before any other work: ValueError unless the boundary is a Polygon or a
MultiPolygon, then ValueError unless the network is a MultiDiGraph. -/
def clip_type_checks (bound : BoundType) (g : GraphType) : Except PyErr Unit :=
  if bound = .multiPolygon ∨ bound = .polygon then
    if g = .multiDiGraph then .ok ()
    else .error (.valueError "Graph object must be of type MultiDiGraph")
  else .error (.valueError "Bound input must be a Shapely Polygon or MultiPolygon object")

/-- C6: the validation prelude of clip passes exactly for a polygon or
multipolygon boundary together with a directed-multigraph network, raises
the boundary ValueError whenever the boundary type is wrong, and raises the
graph-type ValueError whenever the boundary is acceptable but the network is
not a directed multigraph. -/
theorem clip_type_checks_spec :
    ∀ (b : BoundType) (g : GraphType),
      ((clip_type_checks b g = .ok ()) ↔
        ((b = .polygon ∨ b = .multiPolygon) ∧ g = .multiDiGraph))
      ∧ (¬(b = .polygon ∨ b = .multiPolygon) →
          clip_type_checks b g =
            .error (.valueError "Bound input must be a Shapely Polygon or MultiPolygon object"))
      ∧ ((b = .polygon ∨ b = .multiPolygon) ∧ g ≠ .multiDiGraph →
          clip_type_checks b g =
            .error (.valueError "Graph object must be of type MultiDiGraph")) := by decide

/-- Witness for C6: a point boundary is rejected with the boundary ValueError
even when the network is a directed multigraph. -/
theorem clip_type_checks_spec_witness :
    clip_type_checks .point .multiDiGraph =
      .error (.valueError "Bound input must be a Shapely Polygon or MultiPolygon object") :=
  (clip_type_checks_spec .point .multiDiGraph).2.1 (by decide)

/-! ## gravity_demand (core.py lines 883-916) -/

/-- gravity_demand (core.py 883-916) as written in the source: after the body
reassigns maxtrips = 100 and dist_decay = 1 and allocates the zero demand
matrix, it calls Calculate_OD, a name that is defined nowhere in the
repository (the defined function is calculate_OD, lower case), so every call
raises NameError before any demand is computed. -/
def gravity_demand (_G : MDGraph) (_origins _destinations : List ℕ) (_weight : PyVal)
    (_maxtrips _dist_decay _fail_value : ℚ) : Except PyErr (List (List ℤ)) :=
  .error (.nameError "Calculate_OD")

/-- The witness graph for C7: two nodes carrying a population weight. -/
def gC7 : MDGraph :=
  { nodes := [(0, [(.str "population", .num 10)]), (1, [(.str "population", .num 20)])],
    edges := [(0, 1, [(.str "time", .num 5)]), (1, 0, [(.str "time", .num 5)])] }

/-- C7: every call of gravity_demand raises NameError (here evaluated with
identical origin and destination lists on a concrete graph), so no demand
matrix with a zero diagonal is ever returned. -/
theorem gravity_demand_name_error :
    gravity_demand gC7 [0, 1] [0, 1] (.str "population") 100 1 99999999999 =
      .error (.nameError "Calculate_OD") := rfl

/-! ## add_missing_reflected_edges (core.py lines 972-989) -/

/-- add_missing_reflected_edges (core.py 972-989): collects the (u, v) pairs
of all edges, then for every edge (u, v, data) whose reverse pair (v, u) is
not among them appends the reflected edge (v, u, data) (with the same
attribute dictionary, geometry not inverted) to a copy of the graph. -/
def add_missing_reflected_edges (G : MDGraph) : MDGraph :=
  { nodes := G.nodes,
    edges := G.edges ++
      (G.edges.filter (fun e =>
        decide ((e.2.1, e.1) ∉ G.edges.map (fun e2 => (e2.1, e2.2.1))))).map
        (fun e => (e.2.1, e.1, e.2.2)) }

theorem amre_rev_mem (G : MDGraph) (e : Edge)
    (he : e ∈ (add_missing_reflected_edges G).edges) :
    (e.2.1, e.1) ∈ (add_missing_reflected_edges G).edges.map (fun e2 => (e2.1, e2.2.1)) := by
  unfold add_missing_reflected_edges at he ⊢
  simp only [List.map_append, List.mem_append] at he ⊢
  rcases he with he | he
  · by_cases hrev : (e.2.1, e.1) ∈ G.edges.map (fun e2 => (e2.1, e2.2.1))
    · exact Or.inl hrev
    · right
      rw [List.map_map]
      exact List.mem_map.mpr ⟨e, List.mem_filter.mpr ⟨he, by simpa using hrev⟩, rfl⟩
  · left
    obtain ⟨e0, he0, hrefl⟩ := List.mem_map.mp he
    cases hrefl
    exact List.mem_map.mpr ⟨e0, List.mem_of_mem_filter he0, rfl⟩

/-- C9: the output of add_missing_reflected_edges is fully symmetric (every
edge has a reverse-direction edge carrying some attribute dictionary), and
the function is idempotent: a second application returns the very same
graph, adding no edges. -/
theorem add_missing_reflected_edges_spec :
    (∀ (G : MDGraph), ∀ e ∈ (add_missing_reflected_edges G).edges,
        ∃ dta, (e.2.1, e.1, dta) ∈ (add_missing_reflected_edges G).edges)
  ∧ (∀ G : MDGraph,
      add_missing_reflected_edges (add_missing_reflected_edges G) =
        add_missing_reflected_edges G) := by
  constructor
  · intro G e he
    obtain ⟨e2, he2, hpair⟩ := List.mem_map.mp (amre_rev_mem G e he)
    refine ⟨e2.2.2, ?_⟩
    have h1 : e2.1 = e.2.1 := congrArg Prod.fst hpair
    have h2 : e2.2.1 = e.1 := congrArg Prod.snd hpair
    rw [← h1, ← h2]
    exact he2
  · intro G
    set H := add_missing_reflected_edges G with hH
    have hfil : H.edges.filter (fun e =>
        decide ((e.2.1, e.1) ∉ H.edges.map (fun e2 => (e2.1, e2.2.1)))) = [] := by
      apply List.filter_eq_nil_iff.mpr
      intro e he
      simp only [decide_eq_true_eq, Decidable.not_not]
      exact amre_rev_mem G e he
    unfold add_missing_reflected_edges
    rw [hfil]
    simp

/-- The witness graph for C9: a single directed edge from 0 to 1. -/
def gC9 : MDGraph := { nodes := [(0, []), (1, [])], edges := [(0, 1, [])] }

/-- Witness for C9: the symmetry half applied to the concrete one-edge graph
produces the reflected edge from 1 to 0, and idempotence evaluated there. -/
theorem add_missing_reflected_edges_spec_witness :
    (∃ dta, ((1 : ℕ), (0 : ℕ), dta) ∈ (add_missing_reflected_edges gC9).edges) ∧
    add_missing_reflected_edges (add_missing_reflected_edges gC9) =
      add_missing_reflected_edges gC9 :=
  ⟨add_missing_reflected_edges_spec.1 gC9 (0, 1, []) (by decide),
   add_missing_reflected_edges_spec.2 gC9⟩

/-! ## disrupt_network (core.py lines 824-854) -/

/-- The broken-node scan of disrupt_network: collects every node whose value
under the property key strictly exceeds the threshold; KeyError when a node
lacks the property, TypeError when the value is not a number (Python cannot
order such a value against the numeric threshold). -/
def brokenNodes : List (ℕ × AttrMap) → PyVal → ℚ → Except PyErr (List ℕ)
  | [], _, _ => .ok []
  | (u, dta) :: rest, p, t =>
    match getA dta p with
    | some (.num q) =>
      match brokenNodes rest p t with
      | .error e => .error e
      | .ok bs => .ok (if t < q then u :: bs else bs)
    | some _ => .error .typeError
    | none => .error .keyError

/-- disrupt_network (core.py 824-854): on a copy of the graph, sets the time
attribute to the fail value on every edge at least one of whose endpoints is
broken; every other node and edge datum is untouched. -/
def disrupt_network (G : MDGraph) (property : PyVal) (thresh : ℚ) (fail_value : PyVal) :
    Except PyErr MDGraph :=
  match brokenNodes G.nodes property thresh with
  | .error e => .error e
  | .ok broken =>
    .ok { nodes := G.nodes,
          edges := G.edges.map (fun e =>
            if e.1 ∈ broken ∨ e.2.1 ∈ broken then
              (e.1, e.2.1, setA e.2.2 (.str "time") fail_value)
            else e) }

theorem brokenNodes_ok (p : PyVal) (t : ℚ) :
    ∀ (l : List (ℕ × AttrMap)),
      (∀ nd ∈ l, ∃ q : ℚ, getA nd.2 p = some (.num q)) →
      ∃ B, brokenNodes l p t = .ok B ∧
        ∀ u ∈ B, ∃ nd, nd ∈ l ∧ nd.1 = u ∧ ∃ q : ℚ, getA nd.2 p = some (.num q) ∧ t < q := by
  intro l
  induction l with
  | nil => exact fun _ => ⟨[], rfl, by simp⟩
  | cons nd rest ih =>
    intro h
    obtain ⟨q, hq⟩ := h nd (by simp)
    obtain ⟨B, hB, hmem⟩ := ih (fun x hx => h x (by simp [hx]))
    cases nd with
    | mk u dta =>
      refine ⟨if t < q then u :: B else B, ?_, ?_⟩
      · simp only [brokenNodes]
        rw [show getA dta p = some (.num q) from hq, hB]
      · intro v hv
        by_cases hc : t < q
        · rw [if_pos hc] at hv
          rcases List.mem_cons.mp hv with hv0 | hv0
          · exact ⟨(u, dta), by simp, hv0.symm, q, hq, hc⟩
          · obtain ⟨nd0, hnd0, hu, hex⟩ := hmem v hv0
            exact ⟨nd0, by simp [hnd0], hu, hex⟩
        · rw [if_neg hc] at hv
          obtain ⟨nd0, hnd0, hu, hex⟩ := hmem v hv
          exact ⟨nd0, by simp [hnd0], hu, hex⟩

/-- C10: disrupt_network only touches the time attribute of edges incident to
broken nodes.  Under the well-formedness hypothesis that every node carries
a numeric value of the disruption property, the call succeeds and: the node
list (with all its attributes) is returned unchanged; the edge list keeps
its length, every edge keeps its endpoints, and every edge keeps every
attribute other than time; and an edge both of whose endpoints have property
values at or below the threshold is returned entirely unchanged, time
included.  The embedding is a pure function of a copied value, which is the
copy semantics of the source (G.copy() with fresh attribute dicts), so the
caller-held input value is never modified. -/
theorem disrupt_network_frame (G : MDGraph) (p : PyVal) (t : ℚ) (fv : PyVal)
    (hAll : G.nodes.all (fun nd =>
      match getA nd.2 p with | some (.num _) => true | _ => false) = true) :
    ∃ G2, disrupt_network G p t fv = .ok G2 ∧
      G2.nodes = G.nodes ∧
      G2.edges.length = ((G.edges.length : ℕ)) ∧
      (∀ i, i < G.edges.length →
        (G2.edges.getD i edgeDefault).1 = (G.edges.getD i edgeDefault).1 ∧
        (G2.edges.getD i edgeDefault).2.1 = (G.edges.getD i edgeDefault).2.1 ∧
        (∀ k, k ≠ .str "time" →
          getA (G2.edges.getD i edgeDefault).2.2 k =
            getA (G.edges.getD i edgeDefault).2.2 k)) ∧
      (∀ i, i < G.edges.length →
        (∀ nd ∈ G.nodes,
          (nd.1 = (G.edges.getD i edgeDefault).1 ∨
           nd.1 = (G.edges.getD i edgeDefault).2.1) →
          ∀ q : ℚ, getA nd.2 p = some (.num q) → q ≤ t) →
        G2.edges.getD i edgeDefault = G.edges.getD i edgeDefault) := by
  have h : ∀ nd ∈ G.nodes, ∃ q : ℚ, getA nd.2 p = some (.num q) := by
    intro nd hnd
    have hx := List.all_eq_true.mp hAll nd hnd
    cases hga : getA nd.2 p with
    | none => rw [hga] at hx; cases hx
    | some v =>
      cases v with
      | num q => exact ⟨q, rfl⟩
      | str s => rw [hga] at hx; cases hx
      | slist l => rw [hga] at hx; cases hx
  obtain ⟨B, hB, hmem⟩ := brokenNodes_ok p t G.nodes h
  unfold disrupt_network
  rw [hB]
  refine ⟨_, rfl, rfl, by simp, ?_, ?_⟩
  · intro i hi
    rw [getD_map_of_lt _ G.edges i hi edgeDefault]
    by_cases hbr : (G.edges.getD i edgeDefault).1 ∈ B ∨
        (G.edges.getD i edgeDefault).2.1 ∈ B
    · rw [if_pos hbr]
      exact ⟨rfl, rfl, fun k hk => getA_setA_ne _ _ _ _ hk⟩
    · rw [if_neg hbr]
      exact ⟨rfl, rfl, fun k hk => rfl⟩
  · intro i hi hclean
    rw [getD_map_of_lt _ G.edges i hi edgeDefault]
    have hnotbr : ¬ ((G.edges.getD i edgeDefault).1 ∈ B ∨
        (G.edges.getD i edgeDefault).2.1 ∈ B) := by
      rintro (hb | hb)
      · obtain ⟨nd0, hnd0, hu, q, hq, htq⟩ := hmem _ hb
        exact absurd htq (not_lt.mpr (hclean nd0 hnd0 (Or.inl hu) q hq))
      · obtain ⟨nd0, hnd0, hu, q, hq, htq⟩ := hmem _ hb
        exact absurd htq (not_lt.mpr (hclean nd0 hnd0 (Or.inr hu) q hq))
    rw [if_neg hnotbr]

/-- The witness graph for C10: both nodes carry the property below the
threshold used, so no edge is disrupted. -/
def gC10 : MDGraph :=
  { nodes := [(0, [(.str "pop", .num 1)]), (1, [(.str "pop", .num 5)])],
    edges := [(0, 1, [(.str "time", .num 9), (.str "length", .num 3)])] }

/-- Witness for C10: the frame theorem instantiated on gC10 with threshold
10, discharging the well-formedness hypothesis by evaluation. -/
theorem disrupt_network_frame_witness :
    ∃ G2, disrupt_network gC10 (.str "pop") 10 (.num 999) = .ok G2 ∧
      G2.nodes = gC10.nodes ∧
      G2.edges.length = ((gC10.edges.length : ℕ)) ∧
      (∀ i, i < gC10.edges.length →
        (G2.edges.getD i edgeDefault).1 = (gC10.edges.getD i edgeDefault).1 ∧
        (G2.edges.getD i edgeDefault).2.1 = (gC10.edges.getD i edgeDefault).2.1 ∧
        (∀ k, k ≠ .str "time" →
          getA (G2.edges.getD i edgeDefault).2.2 k =
            getA (gC10.edges.getD i edgeDefault).2.2 k)) ∧
      (∀ i, i < gC10.edges.length →
        (∀ nd ∈ gC10.nodes,
          (nd.1 = (gC10.edges.getD i edgeDefault).1 ∨
           nd.1 = (gC10.edges.getD i edgeDefault).2.1) →
          ∀ q : ℚ, getA nd.2 (.str "pop") = some (.num q) → q ≤ 10) →
        G2.edges.getD i edgeDefault = gC10.edges.getD i edgeDefault) :=
  disrupt_network_frame gC10 (.str "pop") 10 (.num 999) (by decide)

/-! ## Map-data document model: way splitting (osm_parser.py lines 169-259) -/

/-- A parsed way of the map-data document: identifier, ordered node-reference
list, and tags. -/
structure OSMWay where
  id : String
  nds : List String
  tags : List (String × String)
deriving DecidableEq, Repr

/-- The first splitting index used by slice_array: the first position i with
1 <= i <= length - 2 whose node is referenced more than once. -/
def findSplitIdx (ar : List String) (div : String → ℕ) : Option ℕ :=
  (List.range ar.length).find? (fun i =>
    decide (1 ≤ i) && decide (i + 2 ≤ ar.length) && decide (1 < div (ar.getD i "")))

/-- slice_array (osm_parser.py 171-180): cuts the node list at the first
interior node referenced more than once, keeping the cut node as both the
last element of the left part and the first element of the right part, and
recurses on the right part.  The fuel argument bounds the recursion depth
only to make the recursion structural: every recursive call strictly
shortens the list (the split index is at least 1), so starting the fuel at
the list length never exhausts it. -/
def slice_go (div : String → ℕ) : ℕ → List String → List (List String)
  | 0, ar => [ar]
  | fuel + 1, ar =>
    match findSplitIdx ar div with
    | some i => ar.take (i + 1) :: slice_go div fuel (ar.drop i)
    | none => [ar]

def slice_array (ar : List String) (div : String → ℕ) : List (List String) :=
  slice_go div ar.length ar

/-- Way.split (osm_parser.py 169-194): one sub-way per slice, its identifier
suffixed with the slice position. -/
def way_split (w : OSMWay) (div : String → ℕ) : List OSMWay :=
  (slice_array w.nds div).enum.map (fun p =>
    { id := w.id ++ "-" ++ toString p.1, nds := p.2, tags := w.tags })

/-- Histogram increment, KeyError when the node id is not a key (a way
referencing a node absent from the parsed node collection). -/
def histIncr : List (String × ℕ) → String → Except PyErr (List (String × ℕ))
  | [], _ => .error .keyError
  | (k, n) :: rest, nid =>
    if k = nid then .ok ((k, n + 1) :: rest)
    else
      match histIncr rest nid with
      | .error e => .error e
      | .ok rest2 => .ok ((k, n) :: rest2)

/-- One increment per node reference of a way. -/
def histAddWay : List (String × ℕ) → List String → Except PyErr (List (String × ℕ))
  | h, [] => .ok h
  | h, nid :: rest =>
    match histIncr h nid with
    | .error e => .error e
    | .ok h2 => histAddWay h2 rest

/-- The node-reference counting loop of OSM.__init__ (osm_parser.py 245-251):
it iterates over the way dictionary and deletes every way of fewer than 2
nodes from that same dictionary DURING the iteration.  In Python 3 deleting
from a dictionary being iterated raises RuntimeError at the next step of the
iteration, so the loop only completes when no short way exists. -/
def osm_count_loop : List (String × ℕ) → List OSMWay → Except PyErr (List (String × ℕ))
  | h, [] => .ok h
  | h, w :: rest =>
    if w.nds.length < 2 then
      .error (.runtimeError "dictionary changed size during iteration")
    else
      match histAddWay h w.nds with
      | .error e => .error e
      | .ok h2 => osm_count_loop h2 rest

/-- Histogram lookup; on the successful construction path every node id
referenced by a way is a histogram key, so the 0 default is never consulted
by way_split. -/
def histGet (h : List (String × ℕ)) (k : String) : ℕ :=
  match h.find? (fun p => decide (p.1 = k)) with
  | some p => p.2
  | none => 0

/-- The way-collection construction of OSM.__init__ (osm_parser.py 196-259):
zero-initialized node-reference histogram over the parsed node ids, the
counting loop with its in-iteration deletion of short ways, then the
replacement of every way by its split sub-ways. -/
def osmBuildWays (nodeIds : List String) (ways : List OSMWay) :
    Except PyErr (List OSMWay) :=
  match osm_count_loop (nodeIds.map (fun k => (k, 0))) ways with
  | .error e => .error e
  | .ok hist => .ok ((ways.map (fun w => way_split w (histGet hist))).flatten)

/-- C8: constructing the document model over a document containing a one-node
way raises RuntimeError (the source deletes the short way from the way
dictionary while iterating over it, which Python 3 forbids) instead of
dropping the way as the claim states; on a document with no short way the
split step itself behaves as claimed, shown here on a way [a, b, c, d] whose
interior node c is also referenced by a second way [c, e]: it is split into
sub-ways [a, b, c] and [c, d] sharing c as a boundary, and no resulting way
has an interior node referenced by more than one way. -/
theorem osmBuildWays_bug :
    osmBuildWays ["n1"] [{ id := "w1", nds := ["n1"], tags := [] }] =
      .error (.runtimeError "dictionary changed size during iteration") ∧
    osmBuildWays ["a", "b", "c", "d", "e"]
      [{ id := "w1", nds := ["a", "b", "c", "d"], tags := [] },
       { id := "w2", nds := ["c", "e"], tags := [] }] =
      .ok [{ id := "w1-0", nds := ["a", "b", "c"], tags := [] },
           { id := "w1-1", nds := ["c", "d"], tags := [] },
           { id := "w2-0", nds := ["c", "e"], tags := [] }] := by decide
